import Mathlib

/-!
Shallow embedding of `src/life/life.py`, a numpy-based implementation of
Conway's Game of Life, together with proofs of the specification claims.

A numpy 2-D array of cell values is embedded as a `List (List Nat)`
(row-major).  All arrays built by the program are rectangular; the
predicate `Rect` records this invariant where a proof needs it.
Operations that can raise a Python exception (`__setitem__` on
out-of-range indices, `insert` on a slice-assignment shape mismatch)
return an `Option`, with `none` standing for the raised exception.
-/

set_option maxHeartbeats 4000000

namespace Life

abbrev Grid := List (List Nat)

/-- Read cell `(i, j)` of a grid; out-of-range reads give `0`
(the zero fill used by the convolution boundary). -/
def gridGet (g : Grid) (i j : Nat) : Nat := (g.getD i []).getD j 0

/-- Number of columns of a (rectangular) grid, as numpy's `shape[1]`. -/
def numCols (g : Grid) : Nat := (g.headD []).length

/-- The grid is rectangular, as every numpy 2-D array is. -/
def Rect (g : Grid) : Prop := ∀ row ∈ g, row.length = numCols g

instance (g : Grid) : Decidable (Rect g) :=
  inferInstanceAs (Decidable (∀ row ∈ g, row.length = numCols g))

/-- Every cell value is `0` or `1` (the board invariant of the spec). -/
def cells01 (g : Grid) : Prop := ∀ i j, gridGet g i j = 0 ∨ gridGet g i j = 1

/-- Read a cell at signed coordinates, `0` outside the grid: this is the
zero-padded boundary of `convolve2d(..., mode=same)` with fill value `0`. -/
def getZ (g : Grid) (i j : Int) : Nat :=
  if 0 ≤ i ∧ 0 ≤ j then gridGet g i.toNat j.toNat else 0

/-- The eight neighbour offsets of the stencil
`[[1,1,1],[1,0,1],[1,1,1]]` used in `Game.move`. -/
def neighborOffsets : List (Int × Int) :=
  [(-1, -1), (-1, 0), (-1, 1), (0, -1), (0, 1), (1, -1), (1, 0), (1, 1)]

/-- `neighbourcount[i, j]`: the convolution of the board with the stencil,
i.e. the sum of the eight surrounding cell values, zero-padded. -/
def ncount (g : Grid) (i j : Nat) : Nat :=
  (neighborOffsets.map fun d => getZ g ((i : Int) + d.1) ((j : Int) + d.2)).sum

/-- The number of living neighbours among the eight surrounding positions,
positions outside the grid counted as dead (spec wording). -/
def liveNeighbors (g : Grid) (i j : Nat) : Nat :=
  (neighborOffsets.map fun d =>
    if getZ g ((i : Int) + d.1) ((j : Int) + d.2) = 1 then 1 else 0).sum

/-- The rectangular grid of shape `R × C` whose cell `(i, j)` is `f i j`:
the result shape of a fresh numpy array of that shape. -/
def mkGrid (R C : Nat) (f : Nat → Nat → Nat) : Grid :=
  (List.range R).map fun i => (List.range C).map fun j => f i j

/-- The cell-update expression of `Game.move`:
`1 if nc == 3 or (nc == 2 and self.board[i, j]) else 0`
(Python truthiness of the current cell value). -/
def moveCell (nc old : Nat) : Nat :=
  if nc = 3 ∨ (nc = 2 ∧ old ≠ 0) then 1 else 0

/-- Write value `v` at row `i`, column `j` (`self.board[i, j] = v`). -/
def setCell (g : Grid) (i j v : Nat) : Grid :=
  g.set i ((g.getD i []).set j v)

/-- The row-major iteration order of the double `for` loop in `Game.move`. -/
def positions (R C : Nat) : List (Nat × Nat) :=
  (List.range R).flatMap fun i => (List.range C).map fun j => (i, j)

/-- `Game.move`: the neighbour counts are computed by the convolution from
the board as it is at the start of the call, then the board is updated
cell by cell, in place, in row-major order; the old cell value is read
from the board being mutated. -/
def move (g : Grid) : Grid :=
  (positions g.length (numCols g)).foldl
    (fun cur ij => setCell cur ij.1 ij.2 (moveCell (ncount g ij.1 ij.2) (gridGet cur ij.1 ij.2)))
    g

/-- The double-buffered next generation: every new cell value is a function
of the grid at the start of the call only. -/
def movePure (g : Grid) : Grid :=
  mkGrid g.length (numCols g) fun i j => moveCell (ncount g i j) (gridGet g i j)

/-- `Game.__init__`: `np.zeros((size, size))`. -/
def gameNew (size : Nat) : Grid := List.replicate size (List.replicate size 0)

/-- `Game.__setitem__`: `self.board[key] = value` for `key = (r, c)`.
numpy integer indexing accepts indices in `[-len, len)`, a negative index
`t` addressing position `len + t`; anything else raises `IndexError`
(modelled as `none`). -/
def setItem (g : Grid) (r c : Int) (v : Nat) : Option Grid :=
  let S1 : Int := g.length
  let S2 : Int := numCols g
  if -S1 ≤ r ∧ r < S1 ∧ -S2 ≤ c ∧ c < S2 then
    some (setCell g (if r < 0 then r + S1 else r).toNat (if c < 0 then c + S2 else c).toNat v)
  else none

/-- Effective bound of a Python slice index `i` on an axis of length `L`:
a negative index counts from the end, and the result is clamped to `[0, L]`. -/
def sliceBound (L : Nat) (i : Int) : Nat :=
  if i < 0 then ((L : Int) + i).toNat else min i.toNat L

/-- `x_start`/`y_start` of `Game.insert` on one axis (`max(0, t - L//2)`),
as an effective Python slice index on an axis of length `S`. -/
def axStart (S L : Nat) (t : Int) : Nat :=
  sliceBound S (max 0 (t - (L / 2 : Nat)))

/-- `x_end`/`y_end` of `Game.insert` on one axis
(`min(S, t + (L+1)//2)`), as an effective slice index. -/
def axEnd (S L : Nat) (t : Int) : Nat :=
  sliceBound S (min (S : Int) (t + ((L + 1) / 2 : Nat)))

/-- `pattern_x_start`/`pattern_y_start` of `Game.insert` on one axis
(`max(0, L//2 - t)`), as an effective slice index on the pattern axis. -/
def axSrcStart (_S L : Nat) (t : Int) : Nat :=
  sliceBound L (max 0 ((L / 2 : Nat) - t))

/-- `pattern_x_end`/`pattern_y_end` of `Game.insert` on one axis
(`min(L, S - t + L//2)`), as an effective slice index. -/
def axSrcEnd (S L : Nat) (t : Int) : Nat :=
  sliceBound L (min (L : Int) ((S : Int) - t + (L / 2 : Nat)))

/-- `Game.insert`: compute the destination window on the board and the
source window on the pattern with the `max`/`min` arithmetic of the source
(the row and column axes use the same computation), then perform the numpy
slice assignment
`board[x_start:x_end, y_start:y_end] = pattern[pxs:pxe, pys:pye]`.
The slice bounds follow Python slicing (negative values count from the
end of the axis); the assignment broadcasts the source onto the
destination window when each source dimension equals the destination
dimension or is `1`, and raises `ValueError` (`none`) otherwise. -/
def insert (b p : Grid) (x y : Int) : Option Grid :=
  let S1 := b.length
  let S2 := numCols b
  let H := p.length
  let W := numCols p
  let br0 := axStart S1 H x
  let br1 := axEnd S1 H x
  let bc0 := axStart S2 W y
  let bc1 := axEnd S2 W y
  let pr0 := axSrcStart S1 H x
  let pr1 := axSrcEnd S1 H x
  let pc0 := axSrcStart S2 W y
  let pc1 := axSrcEnd S2 W y
  if (pr1 - pr0 = br1 - br0 ∨ pr1 - pr0 = 1) ∧ (pc1 - pc0 = bc1 - bc0 ∨ pc1 - pc0 = 1) then
    some (mkGrid S1 S2 fun i j =>
      if br0 ≤ i ∧ i < br1 ∧ bc0 ≤ j ∧ j < bc1 then
        gridGet p (if pr1 - pr0 = 1 then pr0 else pr0 + (i - br0))
                  (if pc1 - pc0 = 1 then pc0 else pc0 + (j - bc0))
      else gridGet b i j)
  else none

/-- `Pattern.flip_vertical`: `self.grid[::-1]`. -/
def flip_vertical (g : Grid) : Grid := g.reverse

/-- `Pattern.flip_horizontal`: `self.grid[:, ::-1]`. -/
def flip_horizontal (g : Grid) : Grid := g.map List.reverse

/-- `np.transpose`: the grid transposed. -/
def transposeGrid (g : Grid) : Grid :=
  mkGrid (numCols g) g.length fun j i => gridGet g i j

/-- `Pattern.flip_diag`: `np.transpose(self.grid)`. -/
def flip_diag (g : Grid) : Grid := transposeGrid g

/-- `np.rot90(m, k)`: `k` is reduced modulo `4`; `k = 0` returns the grid,
`k = 2` flips both axes (axis 0 first), `k = 1` is transpose after a
left-right flip, `k = 3` is a left-right flip after transpose. -/
def rot90 (g : Grid) (k : Int) : Grid :=
  let k' := (k % 4).toNat
  if k' = 0 then g
  else if k' = 2 then flip_horizontal (flip_vertical g)
  else if k' = 1 then transposeGrid (flip_horizontal g)
  else flip_horizontal (transposeGrid g)

/-- `Pattern.rotate`: `np.rot90(self.grid, k=n)`. -/
def rotate (g : Grid) (n : Int) : Grid := rot90 g n

/-- One quarter-turn counterclockwise, the specification's reference
rotation: row `i` of the result is column `C - 1 - i` of the input. -/
def rotCCW (g : Grid) : Grid := (transposeGrid g).reverse

/-- The `blinker` literal of the source. -/
def blinker : Grid := [[0, 0, 0], [1, 1, 1], [0, 0, 0]]

/-- The `glider` literal of the source. -/
def glider : Grid := [[0, 1, 0], [0, 0, 1], [1, 1, 1]]

/-- The 90-degree-rotated blinker literal named by the spec. -/
def blinkerUp : Grid := [[0, 1, 0], [0, 1, 0], [0, 1, 0]]

/-- One caller-visible operation on a board. -/
inductive Op where
  | setOp (r c : Int) (v : Nat)
  | insertOp (p : Grid) (x y : Int)
  | advanceOp

/-- Apply one operation; an operation whose Python counterpart raises
leaves the board as it was (numpy performs no partial write there). -/
def applyOp (g : Grid) : Op → Grid
  | .setOp r c v => (setItem g r c v).getD g
  | .insertOp p x y => (insert g p x y).getD g
  | .advanceOp => move g

/-- Run a sequence of operations from a starting board. -/
def run (g : Grid) (ops : List Op) : Grid := ops.foldl applyOp g

/-- The inputs of an operation are all `0` or `1`. -/
def opValid01 : Op → Prop
  | .setOp _ _ v => v = 0 ∨ v = 1
  | .insertOp p _ _ => ∀ row ∈ p, ∀ v ∈ row, v = 0 ∨ v = 1
  | .advanceOp => True

/-! ### Basic access lemmas -/

lemma gridGet_eq_getElem (g : Grid) (i j : Nat) :
    gridGet g i j = ((g[i]?.getD [])[j]?.getD 0) := by
  simp [gridGet, List.getD_eq_getElem?_getD]

lemma numCols_eq_row0 (g : Grid) : numCols g = (g.getD 0 []).length := by
  cases g <;> rfl

lemma row_length_of_rect {g : Grid} (hg : Rect g) {i : Nat} (hi : i < g.length) :
    (g.getD i []).length = numCols g := by
  rw [List.getD_eq_getElem _ _ hi]
  exact hg _ (List.getElem_mem hi)

lemma getD_of_le {α : Type} (l : List α) (d : α) {i : Nat} (h : l.length ≤ i) :
    l.getD i d = d := by
  rw [List.getD_eq_getElem?_getD, List.getElem?_eq_none h]
  rfl

lemma gridGet_of_row_le (g : Grid) {i : Nat} (h : g.length ≤ i) (j : Nat) :
    gridGet g i j = 0 := by
  unfold gridGet
  rw [getD_of_le _ _ h]
  rfl

lemma gridGet_of_col_le (g : Grid) (i : Nat) {j : Nat} (h : (g.getD i []).length ≤ j) :
    gridGet g i j = 0 := getD_of_le _ _ h

/-- Two grids with the same shape and the same cells are equal. -/
lemma grid_ext {g1 g2 : Grid} (hL : g1.length = g2.length)
    (hrow : ∀ i, i < g1.length → (g1.getD i []).length = (g2.getD i []).length)
    (hget : ∀ i j, gridGet g1 i j = gridGet g2 i j) : g1 = g2 := by
  refine List.ext_getElem hL fun i h1 h2 => ?_
  refine List.ext_getElem ?_ fun j hj1 hj2 => ?_
  · have := hrow i h1
    rwa [List.getD_eq_getElem _ _ h1, List.getD_eq_getElem _ _ h2] at this
  · have := hget i j
    rw [gridGet, gridGet, List.getD_eq_getElem _ _ h1, List.getD_eq_getElem _ _ h2,
      List.getD_eq_getElem _ _ hj1, List.getD_eq_getElem _ _ hj2] at this
    exact this

/-! ### `mkGrid` lemmas -/

lemma length_mkGrid (R C : Nat) (f : Nat → Nat → Nat) : (mkGrid R C f).length = R := by
  simp [mkGrid]

lemma row_mkGrid (R C : Nat) (f : Nat → Nat → Nat) {i : Nat} (hi : i < R) :
    (mkGrid R C f).getD i [] = (List.range C).map fun j => f i j := by
  rw [List.getD_eq_getElem _ _ (by simpa [mkGrid] using hi)]
  simp [mkGrid]

lemma row_length_mkGrid (R C : Nat) (f : Nat → Nat → Nat) {i : Nat} (hi : i < R) :
    ((mkGrid R C f).getD i []).length = C := by
  rw [row_mkGrid R C f hi]; simp

lemma gridGet_mkGrid (R C : Nat) (f : Nat → Nat → Nat) (i j : Nat) :
    gridGet (mkGrid R C f) i j = if i < R ∧ j < C then f i j else 0 := by
  by_cases hi : i < R
  · rw [gridGet, row_mkGrid R C f hi]
    by_cases hj : j < C
    · rw [List.getD_eq_getElem _ _ (by simpa using hj)]
      simp [hi, hj]
    · rw [getD_of_le _ _ (by simpa using Nat.le_of_not_lt hj)]
      simp [hj]
  · rw [gridGet_of_row_le _ (by simpa [length_mkGrid] using Nat.le_of_not_lt hi)]
    simp [hi]

lemma rect_mkGrid (R C : Nat) (f : Nat → Nat → Nat) : Rect (mkGrid R C f) := by
  intro row hrow
  simp only [mkGrid, List.mem_map, List.mem_range] at hrow
  obtain ⟨i, hi, rfl⟩ := hrow
  rcases R with - | R
  · omega
  · simp [numCols, mkGrid, List.range_succ_eq_map]

lemma numCols_mkGrid {R : Nat} (C : Nat) (f : Nat → Nat → Nat) (hR : 0 < R) :
    numCols (mkGrid R C f) = C := by
  rw [numCols_eq_row0, row_length_mkGrid R C f hR]

/-! ### `setCell` lemmas -/

lemma length_setCell (g : Grid) (i j v : Nat) : (setCell g i j v).length = g.length := by
  simp [setCell]

lemma row_length_setCell (g : Grid) (i j v k : Nat) :
    ((setCell g i j v).getD k []).length = (g.getD k []).length := by
  unfold setCell
  rcases Nat.lt_or_ge k g.length with hk | hk
  · by_cases hik : i = k
    · subst hik
      rw [List.getD_eq_getElem?_getD, List.getElem?_set_self (by simpa using hk)]
      simp
    · rw [List.getD_eq_getElem?_getD, List.getElem?_set_ne hik, ← List.getD_eq_getElem?_getD]
  · rw [getD_of_le _ _ (by simpa using hk), getD_of_le _ _ hk]

lemma gridGet_setCell_ne (g : Grid) (i j v i' j' : Nat) (h : i ≠ i' ∨ j ≠ j') :
    gridGet (setCell g i j v) i' j' = gridGet g i' j' := by
  unfold setCell
  simp only [gridGet, List.getD_eq_getElem?_getD]
  by_cases hii : i = i'
  · rcases h with h | h
    · exact absurd hii h
    · subst hii
      by_cases hlen : i < g.length
      · rw [List.getElem?_set_self hlen]
        simp only [Option.getD_some]
        rw [List.getElem?_set_ne h]
      · have h1 : (List.set g i ((g[i]?.getD []).set j v))[i]? = none :=
          List.getElem?_eq_none (by simpa using Nat.le_of_not_lt hlen)
        have h2 : g[i]? = none := List.getElem?_eq_none (Nat.le_of_not_lt hlen)
        rw [h1, h2]
  · rw [List.getElem?_set_ne hii]

lemma gridGet_setCell_self (g : Grid) {i j : Nat} (v : Nat)
    (hi : i < g.length) (hj : j < (g.getD i []).length) :
    gridGet (setCell g i j v) i j = v := by
  unfold setCell
  simp only [gridGet, List.getD_eq_getElem?_getD]
  rw [List.getElem?_set_self hi]
  simp only [Option.getD_some]
  rw [List.getElem?_set_self (by rwa [List.getD_eq_getElem?_getD] at hj)]
  rfl

lemma setCell_oob (g : Grid) {i j : Nat} (v : Nat) (h : (g.getD i []).length ≤ j) :
    setCell g i j v = g := by
  unfold setCell
  rw [List.set_eq_of_length_le h]
  rcases Nat.lt_or_ge i g.length with hi | hi
  · refine List.ext_getElem (by simp) fun k h1 h2 => ?_
    rcases Nat.decEq i k with hik | hik
    · rw [List.getElem_set_ne (by omega)]
    · subst hik
      rw [List.getElem_set_self, List.getD_eq_getElem _ _ hi]
  · rw [List.set_eq_of_length_le hi]

lemma numCols_setCell (g : Grid) (i j v : Nat) : numCols (setCell g i j v) = numCols g := by
  rw [numCols_eq_row0, numCols_eq_row0, row_length_setCell]

/-! ### The in-place scan of `Game.move` -/

lemma mem_positions {R C i j : Nat} : (i, j) ∈ positions R C ↔ i < R ∧ j < C := by
  simp [positions]

lemma nodup_positions (R C : Nat) : (positions R C).Nodup := by
  rw [positions, List.nodup_flatMap]
  constructor
  · intro i _
    exact (List.nodup_range C).map fun a b h => by simpa using congrArg Prod.snd h
  · refine List.Pairwise.imp ?_ (List.pairwise_lt_range R)
    intro a b hab x hxa hxb
    simp only [Function.onFun, List.mem_map, List.mem_range] at hxa hxb
    obtain ⟨j1, -, rfl⟩ := hxa
    obtain ⟨j2, -, h2⟩ := hxb
    exact absurd (congrArg Prod.fst h2) (by simpa using hab.ne')

/-- Characterisation of the in-place scan: starting from a board `acc` that
still holds the original values of `g0` at every unprocessed position, the
scan writes the double-buffered value at each position of the worklist and
touches nothing else. -/
lemma foldl_setCell_char (nc : Nat → Nat → Nat) (g0 : Grid) :
    ∀ (l : List (Nat × Nat)) (acc : Grid),
      l.Nodup →
      acc.length = g0.length →
      (∀ k, (acc.getD k []).length = (g0.getD k []).length) →
      (∀ p ∈ l, p.1 < g0.length ∧ p.2 < (g0.getD p.1 []).length) →
      (∀ p ∈ l, gridGet acc p.1 p.2 = gridGet g0 p.1 p.2) →
      ∀ i j,
        gridGet (l.foldl
          (fun cur ij => setCell cur ij.1 ij.2 (moveCell (nc ij.1 ij.2) (gridGet cur ij.1 ij.2)))
          acc) i j
          = if (i, j) ∈ l then moveCell (nc i j) (gridGet g0 i j) else gridGet acc i j := by
  intro l
  induction l with
  | nil => intro acc _ _ _ _ _ i j; simp
  | cons p l ih =>
    intro acc hnd hlen hrows hbnd hagr i j
    obtain ⟨hp, hnd'⟩ := List.nodup_cons.mp hnd
    rw [List.foldl_cons]
    set acc' := setCell acc p.1 p.2 (moveCell (nc p.1 p.2) (gridGet acc p.1 p.2)) with hacc'
    have hlen' : acc'.length = g0.length := by rw [hacc', length_setCell, hlen]
    have hrows' : ∀ k, (acc'.getD k []).length = (g0.getD k []).length := by
      intro k; rw [hacc', row_length_setCell]; exact hrows k
    have hbnd' : ∀ q ∈ l, q.1 < g0.length ∧ q.2 < (g0.getD q.1 []).length :=
      fun q hq => hbnd q (List.mem_cons_of_mem _ hq)
    have hagr' : ∀ q ∈ l, gridGet acc' q.1 q.2 = gridGet g0 q.1 q.2 := by
      intro q hq
      have hqp : q ≠ p := fun h => hp (h ▸ hq)
      have : q.1 ≠ p.1 ∨ q.2 ≠ p.2 := by
        by_contra hc
        push_neg at hc
        exact hqp (Prod.ext hc.1 hc.2)
      rw [hacc', gridGet_setCell_ne _ _ _ _ _ _ (this.imp Ne.symm Ne.symm)]
      exact hagr q (List.mem_cons_of_mem _ hq)
    have := ih acc' hnd' hlen' hrows' hbnd' hagr' i j
    rw [this]
    by_cases hmem : (i, j) ∈ l
    · rw [if_pos hmem, if_pos (List.mem_cons_of_mem _ hmem)]
    · rw [if_neg hmem]
      by_cases hij : (i, j) = p
      · rw [Prod.ext_iff] at hij
        obtain ⟨hi', hj'⟩ := hij
        simp only at hi' hj'
        subst hi'; subst hj'
        have hb := hbnd p (List.mem_cons_self _ _)
        have hmemc : (p.1, p.2) ∈ p :: l := by rw [Prod.mk.eta]; exact List.mem_cons_self _ _
        rw [if_pos hmemc, hacc']
        have h1 : p.1 < acc.length := by rw [hlen]; exact hb.1
        have h2 : p.2 < (acc.getD p.1 []).length := by rw [hrows p.1]; exact hb.2
        rw [gridGet_setCell_self _ _ h1 h2, hagr p (List.mem_cons_self _ _)]
      · rw [if_neg (by simp only [List.mem_cons]; tauto), hacc']
        have : p.1 ≠ i ∨ p.2 ≠ j := by
          by_contra hc
          push_neg at hc
          exact hij (by rw [Prod.ext_iff]; exact ⟨hc.1.symm, hc.2.symm⟩)
        exact gridGet_setCell_ne _ _ _ _ _ _ this

lemma foldl_setCell_shape (nc : Nat → Nat → Nat) :
    ∀ (l : List (Nat × Nat)) (acc : Grid),
      ((l.foldl
        (fun cur ij => setCell cur ij.1 ij.2 (moveCell (nc ij.1 ij.2) (gridGet cur ij.1 ij.2)))
        acc).length = acc.length)
      ∧ ∀ k, ((l.foldl
          (fun cur ij => setCell cur ij.1 ij.2 (moveCell (nc ij.1 ij.2) (gridGet cur ij.1 ij.2)))
          acc).getD k []).length = (acc.getD k []).length := by
  intro l
  induction l with
  | nil => intro acc; exact ⟨rfl, fun _ => rfl⟩
  | cons p l ih =>
    intro acc
    rw [List.foldl_cons]
    obtain ⟨h1, h2⟩ := ih (setCell acc p.1 p.2 (moveCell (nc p.1 p.2) (gridGet acc p.1 p.2)))
    exact ⟨by rw [h1, length_setCell], fun k => by rw [h2 k, row_length_setCell]⟩

lemma move_shape (g : Grid) :
    (move g).length = g.length ∧ ∀ k, ((move g).getD k []).length = (g.getD k []).length := by
  rw [move]
  exact foldl_setCell_shape (fun i j => ncount g i j) (positions g.length (numCols g)) g

/-- The cells of `Game.move`: at every position of the board, the result
holds the double-buffered value; elsewhere the read defaults to `0`. -/
lemma gridGet_move {g : Grid} (hg : Rect g) (i j : Nat) :
    gridGet (move g) i j =
      if (i, j) ∈ positions g.length (numCols g) then moveCell (ncount g i j) (gridGet g i j)
      else gridGet g i j := by
  rw [move]
  exact foldl_setCell_char (fun i j => ncount g i j) g _ g
    (nodup_positions _ _) rfl (fun _ => rfl)
    (fun p hp => by
      obtain ⟨h1, h2⟩ := mem_positions.mp (by simpa using hp)
      exact ⟨h1, by rw [row_length_of_rect hg h1]; exact h2⟩)
    (fun _ _ => rfl) i j

/-- `Game.move` computes exactly the double-buffered next generation. -/
lemma move_eq_movePure {g : Grid} (hg : Rect g) : move g = movePure g := by
  have hshape := move_shape g
  refine grid_ext ?_ ?_ ?_
  · rw [hshape.1, movePure, length_mkGrid]
  · intro i hi
    rw [hshape.1] at hi
    rw [hshape.2 i, movePure, row_length_mkGrid _ _ _ hi, row_length_of_rect hg hi]
  · intro i j
    rw [gridGet_move hg i j, movePure, gridGet_mkGrid]
    by_cases hij : i < g.length ∧ j < numCols g
    · rw [if_pos (mem_positions.mpr hij), if_pos hij]
    · rw [if_neg (fun h => hij (mem_positions.mp h)), if_neg hij]
      rcases Nat.lt_or_ge i g.length with hi | hi
      · have hj : numCols g ≤ j := by
          rcases Nat.lt_or_ge j (numCols g) with hj | hj
          · exact absurd ⟨hi, hj⟩ hij
          · exact hj
        rw [gridGet_of_col_le g i (by rw [row_length_of_rect hg hi]; exact hj)]
      · rw [gridGet_of_row_le g hi]

/-! ### Cell values and neighbour counts -/

lemma cells01_of_forall {g : Grid} (h : ∀ row ∈ g, ∀ v ∈ row, v = 0 ∨ v = 1) :
    cells01 g := by
  intro i j
  unfold gridGet
  rcases Nat.lt_or_ge i g.length with hi | hi
  · rcases Nat.lt_or_ge j (g.getD i []).length with hj | hj
    · have hmem : g.getD i [] ∈ g := by
        rw [List.getD_eq_getElem _ _ hi]; exact List.getElem_mem hi
      have hv : (g.getD i []).getD j 0 ∈ g.getD i [] := by
        rw [List.getD_eq_getElem _ _ hj]; exact List.getElem_mem hj
      exact h _ hmem _ hv
    · rw [getD_of_le _ _ hj]; left; rfl
  · rw [getD_of_le _ _ hi]; left; rfl

lemma getZ01 {g : Grid} (h : cells01 g) (a b : Int) : getZ g a b = 0 ∨ getZ g a b = 1 := by
  unfold getZ
  split
  · exact h _ _
  · left; rfl

/-- On a `0`/`1` board, the convolution value equals the number of living
neighbours. -/
lemma ncount_eq_liveNeighbors {g : Grid} (h : cells01 g) (i j : Nat) :
    ncount g i j = liveNeighbors g i j := by
  unfold ncount liveNeighbors
  congr 1
  refine List.map_congr_left fun d _ => ?_
  rcases getZ01 h ((i : Int) + d.1) ((j : Int) + d.2) with hv | hv <;> rw [hv] <;> simp

/-- C1.  After one `advance`, a cell is alive exactly when its count of
living neighbours among the eight surrounding positions at the start of
the call (positions outside the grid counted as dead) was `3`, or was `2`
while the cell itself was alive; in every other case the cell is dead. -/
theorem C1_move_rule {g : Grid} (hrect : Rect g) (h01 : cells01 g) (i j : Nat)
    (hi : i < g.length) (hj : j < numCols g) :
    gridGet (move g) i j =
      if liveNeighbors g i j = 3 ∨ (liveNeighbors g i j = 2 ∧ gridGet g i j = 1)
      then 1 else 0 := by
  rw [gridGet_move hrect i j, if_pos (mem_positions.mpr ⟨hi, hj⟩), moveCell,
    ncount_eq_liveNeighbors h01]
  refine if_congr ?_ rfl rfl
  rcases h01 i j with h | h <;> simp [h]

/-- Witness for C1 at a concrete board and cell. -/
theorem C1_move_rule_witness :
    gridGet (move [[0, 1, 0], [1, 1, 1], [0, 0, 0]]) 0 1 =
      if liveNeighbors [[0, 1, 0], [1, 1, 1], [0, 0, 0]] 0 1 = 3 ∨
          (liveNeighbors [[0, 1, 0], [1, 1, 1], [0, 0, 0]] 0 1 = 2 ∧
            gridGet [[0, 1, 0], [1, 1, 1], [0, 0, 0]] 0 1 = 1)
      then 1 else 0 :=
  C1_move_rule (by decide) (cells01_of_forall (by decide)) 0 1 (by decide) (by decide)

/-- C2.  The in-place cell-by-cell update of `Game.move` equals the pure
double-buffered computation: the result is a function of the grid at the
start of the call only. -/
theorem C2_move_eq_double_buffer {g : Grid} (hrect : Rect g) : move g = movePure g :=
  move_eq_movePure hrect

/-- Witness for C2 at a concrete board. -/
theorem C2_move_eq_double_buffer_witness :
    move [[1, 1], [1, 0]] = movePure [[1, 1], [1, 0]] :=
  C2_move_eq_double_buffer (by decide)

/-! ### `Game.__setitem__` -/

lemma setItem_none_iff {g : Grid} {s : Nat} (hL : g.length = s) (hC : numCols g = s)
    (r c : Int) (v : Nat) :
    setItem g r c v = none ↔
      ¬(-(s : Int) ≤ r ∧ r < s ∧ -(s : Int) ≤ c ∧ c < s) := by
  unfold setItem
  rw [hL, hC]
  split <;> simp_all

/-- C4 (amended).  `set` fails exactly when a coordinate is `< -s` or
`≥ s` on either axis — in particular `set` at `(s, 0)` raises — while a
coordinate in `[-s, 0)` is accepted silently. -/
theorem C4_set_out_of_range {g : Grid} {s : Nat} (hL : g.length = s) (hC : numCols g = s)
    (r c : Int) (v : Nat) :
    (setItem g r c v = none ↔
      (r < -(s : Int) ∨ (s : Int) ≤ r ∨ c < -(s : Int) ∨ (s : Int) ≤ c)) ∧
      setItem g (s : Int) 0 v = none := by
  constructor
  · rw [setItem_none_iff hL hC]
    constructor <;> intro h <;> omega
  · rw [setItem_none_iff hL hC]
    omega

/-- Witness for C4 at a concrete board. -/
theorem C4_set_out_of_range_witness :
    (setItem (gameNew 3) 1 5 0 = none ↔
      ((1 : Int) < -(3 : Int) ∨ (3 : Int) ≤ 1 ∨ (5 : Int) < -(3 : Int) ∨ (3 : Int) ≤ 5)) ∧
      setItem (gameNew 3) (3 : Int) 0 0 = none :=
  @C4_set_out_of_range (gameNew 3) 3 rfl rfl 1 5 0

/-- Counterexample to C4 as stated: on a board of size `4`, the coordinate
`-1` lies outside `[0, 4)`, yet `set` raises nothing and silently writes
the value (at the wrapped row `3`). -/
theorem C4_counterexample :
    ((-1 : Int) < 0 ∨ (4 : Int) ≤ -1) ∧
      setItem (gameNew 4) (-1) 0 1 =
        some [[0, 0, 0, 0], [0, 0, 0, 0], [0, 0, 0, 0], [1, 0, 0, 0]] := by
  decide

/-- C10.  A negative coordinate in `[-s, 0)` (on either axis, the other
being in range) is accepted without error and writes at the wrapped
position `s + coordinate`. -/
theorem C10_set_negative_wraps {g : Grid} {s : Nat} (hL : g.length = s) (hC : numCols g = s)
    (r c : Int) (v : Nat) :
    (-(s : Int) ≤ r → r < 0 → 0 ≤ c → c < s →
      setItem g r c v = some (setCell g (r + s).toNat c.toNat v)) ∧
    (0 ≤ r → r < s → -(s : Int) ≤ c → c < 0 →
      setItem g r c v = some (setCell g r.toNat (c + s).toNat v)) := by
  constructor <;> intro h1 h2 h3 h4 <;> unfold setItem <;> rw [hL, hC] <;>
    rw [if_pos (by omega)]
  · rw [if_pos (by omega), if_neg (by omega)]
  · rw [if_neg (by omega), if_pos (by omega)]

/-- Witness for C10 at a concrete board. -/
theorem C10_set_negative_wraps_witness :
    setItem (gameNew 3) (-1) 0 1 = some (setCell (gameNew 3) ((-1 : Int) + 3).toNat (0 : Int).toNat 1) ∧
      setItem (gameNew 3) 0 (-2) 1 = some (setCell (gameNew 3) (0 : Int).toNat ((-2 : Int) + 3).toNat 1) :=
  ⟨(@C10_set_negative_wraps (gameNew 3) 3 rfl rfl (-1) 0 1).1 (by decide) (by decide) (by decide) (by decide),
   (@C10_set_negative_wraps (gameNew 3) 3 rfl rfl 0 (-2) 1).2 (by decide) (by decide) (by decide) (by decide)⟩

/-! ### Pattern flips -/

lemma getD_reverse {α : Type} (l : List α) (d : α) (i : Nat) :
    l.reverse.getD i d = if i < l.length then l.getD (l.length - 1 - i) d else d := by
  rcases Nat.lt_or_ge i l.length with hi | hi
  · rw [if_pos hi, List.getD_eq_getElem _ _ (by simpa using hi), List.getElem_reverse,
      List.getD_eq_getElem _ _ (by omega)]
  · rw [if_neg (by omega), getD_of_le _ _ (by simpa using hi)]

lemma row_flip_horizontal (g : Grid) (i : Nat) :
    (flip_horizontal g).getD i [] = (g.getD i []).reverse := by
  unfold flip_horizontal
  rcases Nat.lt_or_ge i g.length with hi | hi
  · rw [List.getD_eq_getElem _ _ (by simpa using hi), List.getD_eq_getElem _ _ hi,
      List.getElem_map]
  · rw [getD_of_le _ _ (by simpa using hi), getD_of_le _ _ hi]
    rfl

lemma gridGet_flip_horizontal (g : Grid) (i j : Nat) :
    gridGet (flip_horizontal g) i j =
      if j < (g.getD i []).length then gridGet g i ((g.getD i []).length - 1 - j) else 0 := by
  rw [gridGet, row_flip_horizontal, getD_reverse]
  rfl

lemma length_flip_horizontal (g : Grid) : (flip_horizontal g).length = g.length := by
  simp [flip_horizontal]

lemma numCols_flip_horizontal (g : Grid) : numCols (flip_horizontal g) = numCols g := by
  cases g <;> simp [flip_horizontal, numCols]

lemma flip_horizontal_involutive (g : Grid) :
    flip_horizontal (flip_horizontal g) = g := by
  unfold flip_horizontal
  rw [List.map_map]
  simp

/-- C9.  `flip_horizontal` reverses the column order of every row, keeps
the dimensions, and is an involution.  (The receiver itself is unmodified
by construction: the embedding builds a new grid from the old one.) -/
theorem C9_flip_horizontal_spec (g : Grid) :
    (flip_horizontal g).length = g.length ∧
    (∀ i, ((flip_horizontal g).getD i []).length = (g.getD i []).length) ∧
    (∀ i j, gridGet (flip_horizontal g) i j =
      if j < (g.getD i []).length then gridGet g i ((g.getD i []).length - 1 - j) else 0) ∧
    flip_horizontal (flip_horizontal g) = g :=
  ⟨length_flip_horizontal g,
   fun i => by rw [row_flip_horizontal]; simp,
   fun i j => gridGet_flip_horizontal g i j,
   flip_horizontal_involutive g⟩

/-! ### Transpose and rotations -/

/-- A grid either is empty or has a nonzero number of columns: the shapes
of 2-D numpy arrays that `List (List Nat)` can represent faithfully. -/
def Proper (g : Grid) : Prop := g = [] ∨ 0 < numCols g

instance (g : Grid) : Decidable (Proper g) :=
  inferInstanceAs (Decidable (g = [] ∨ 0 < numCols g))

lemma length_transposeGrid (g : Grid) : (transposeGrid g).length = numCols g :=
  length_mkGrid _ _ _

lemma row_length_transposeGrid (g : Grid) {i : Nat} (hi : i < numCols g) :
    ((transposeGrid g).getD i []).length = g.length :=
  row_length_mkGrid _ _ _ hi

lemma gridGet_transposeGrid (g : Grid) (i j : Nat) :
    gridGet (transposeGrid g) i j =
      if i < numCols g ∧ j < g.length then gridGet g j i else 0 :=
  gridGet_mkGrid _ _ _ i j

lemma length_flip_vertical (g : Grid) : (flip_vertical g).length = g.length := by
  simp [flip_vertical]

lemma row_flip_vertical (g : Grid) (i : Nat) :
    (flip_vertical g).getD i [] =
      if i < g.length then g.getD (g.length - 1 - i) [] else [] :=
  getD_reverse g [] i

lemma gridGet_flip_vertical (g : Grid) (i j : Nat) :
    gridGet (flip_vertical g) i j =
      if i < g.length then gridGet g (g.length - 1 - i) j else 0 := by
  rw [gridGet, row_flip_vertical]
  split
  · rfl
  · rfl

lemma numCols_flip_vertical {g : Grid} (hrect : Rect g) :
    numCols (flip_vertical g) = numCols g := by
  rcases g with - | ⟨r, t⟩
  · rfl
  · rw [numCols_eq_row0, row_flip_vertical]
    rw [if_pos (by simp)]
    exact row_length_of_rect hrect (by simp)

lemma rotCCW_def (g : Grid) : rotCCW g = flip_vertical (transposeGrid g) := rfl

lemma length_rotCCW (g : Grid) : (rotCCW g).length = numCols g := by
  rw [rotCCW_def, length_flip_vertical, length_transposeGrid]

lemma row_length_rotCCW (g : Grid) {i : Nat} (hi : i < numCols g) :
    ((rotCCW g).getD i []).length = g.length := by
  rw [rotCCW_def, row_flip_vertical, length_transposeGrid, if_pos hi]
  exact row_length_transposeGrid g (by omega)

lemma gridGet_rotCCW (g : Grid) (i j : Nat) :
    gridGet (rotCCW g) i j =
      if i < numCols g ∧ j < g.length then gridGet g j (numCols g - 1 - i) else 0 := by
  rw [rotCCW_def, gridGet_flip_vertical, length_transposeGrid]
  by_cases hi : i < numCols g
  · rw [if_pos hi, gridGet_transposeGrid]
    by_cases hj : j < g.length
    · rw [if_pos (by omega), if_pos (by omega)]
    · rw [if_neg (by omega), if_neg (by omega)]
  · rw [if_neg hi, if_neg (by omega)]

lemma rotCCW_empty_of_numCols_zero {g : Grid} (hC : numCols g = 0) : rotCCW g = [] := by
  rw [rotCCW_def, transposeGrid, hC, mkGrid]
  rfl

lemma transposeGrid_empty : transposeGrid ([] : Grid) = [] := rfl

lemma rect_transposeGrid (g : Grid) : Rect (transposeGrid g) :=
  rect_mkGrid _ _ _

lemma numCols_rotCCW {g : Grid} (hC : 0 < numCols g) :
    numCols (rotCCW g) = g.length := by
  rw [rotCCW_def, numCols_flip_vertical (rect_transposeGrid g), numCols_eq_row0,
    row_length_transposeGrid g hC]

lemma rect_rotCCW (g : Grid) : Rect (rotCCW g) := by
  intro row hrow
  have hmem : row ∈ transposeGrid g := by
    rw [rotCCW_def, flip_vertical, List.mem_reverse] at hrow
    exact hrow
  have hlen : row.length = g.length := by
    rw [transposeGrid, mkGrid] at hmem
    simp only [List.mem_map, List.mem_range] at hmem
    obtain ⟨j, -, rfl⟩ := hmem
    simp
  have hC : 0 < numCols g := by
    by_contra hc
    have hC0 : numCols g = 0 := by omega
    rw [rotCCW_empty_of_numCols_zero hC0] at hrow
    simp at hrow
  rw [hlen, numCols_rotCCW hC]

/-- `np.rot90` with `k = 1` is one counterclockwise quarter-turn. -/
lemma rot1_eq {g : Grid} (hrect : Rect g) :
    transposeGrid (flip_horizontal g) = rotCCW g := by
  refine grid_ext ?_ ?_ ?_
  · rw [length_transposeGrid, numCols_flip_horizontal, length_rotCCW]
  · intro i hi
    rw [length_transposeGrid, numCols_flip_horizontal] at hi
    rw [row_length_transposeGrid _ (by rwa [numCols_flip_horizontal]),
      length_flip_horizontal, row_length_rotCCW g hi]
  · intro i j
    rw [gridGet_transposeGrid, gridGet_rotCCW, numCols_flip_horizontal,
      length_flip_horizontal]
    by_cases h : i < numCols g ∧ j < g.length
    · rw [if_pos h, if_pos h, gridGet_flip_horizontal,
        row_length_of_rect hrect h.2, if_pos h.1]
    · rw [if_neg h, if_neg h]

/-- `np.rot90` with `k = 2` is two counterclockwise quarter-turns. -/
lemma rot2_eq {g : Grid} (hrect : Rect g) (hp : Proper g) :
    flip_horizontal (flip_vertical g) = rotCCW (rotCCW g) := by
  rcases hp with rfl | hC
  · rfl
  refine grid_ext ?_ ?_ ?_
  · rw [length_flip_horizontal, length_flip_vertical, length_rotCCW,
      numCols_rotCCW hC]
  · intro i hi
    rw [length_flip_horizontal, length_flip_vertical] at hi
    rw [row_flip_horizontal, List.length_reverse, row_flip_vertical, if_pos hi,
      row_length_of_rect hrect (by omega), row_length_rotCCW _ (by rwa [numCols_rotCCW hC]),
      length_rotCCW]
  · intro i j
    rw [gridGet_flip_horizontal, gridGet_rotCCW, gridGet_rotCCW,
      length_rotCCW, numCols_rotCCW hC]
    by_cases hi : i < g.length
    · have hrow : ((flip_vertical g).getD i []).length = numCols g := by
        rw [row_flip_vertical, if_pos hi]
        exact row_length_of_rect hrect (by omega)
      rw [hrow, gridGet_flip_vertical]
      split_ifs <;> first | rfl | omega
    · have hrow : ((flip_vertical g).getD i []).length = 0 := by
        rw [row_flip_vertical, if_neg (by omega)]
        rfl
      rw [hrow]
      split_ifs <;> first | rfl | omega

/-- `np.rot90` with `k = 3` is three counterclockwise quarter-turns. -/
lemma rot3_eq {g : Grid} (hrect : Rect g) (hp : Proper g) :
    flip_horizontal (transposeGrid g) = rotCCW (rotCCW (rotCCW g)) := by
  rcases hp with rfl | hC
  · rfl
  have h1 : flip_vertical (rotCCW g) = transposeGrid g := by
    rw [rotCCW_def, flip_vertical, flip_vertical, List.reverse_reverse]
  have h2 : Proper (rotCCW g) := by
    right
    rw [numCols_rotCCW hC]
    rcases g with - | ⟨r, t⟩
    · exact absurd hC (by simp [numCols])
    · simp
  have h3 := rot2_eq (rect_rotCCW g) h2
  rw [h1] at h3
  exact h3

/-- C7.  `rotate n` equals `n mod 4` counterclockwise quarter-turns; the
dimensions swap for odd `n` and are unchanged for even `n`; and
`rotate 4` is the identity. -/
theorem C7_rotate_spec {g : Grid} (hrect : Rect g) (hp : Proper g) (n : Int) :
    rotate g n = rotCCW^[(n % 4).toNat] g ∧
    (n % 2 ≠ 0 → (rotate g n).length = numCols g ∧ numCols (rotate g n) = g.length) ∧
    (n % 2 = 0 → (rotate g n).length = g.length ∧ numCols (rotate g n) = numCols g) ∧
    rotate g 4 = g := by
  have hmod : n % 4 = 0 ∨ n % 4 = 1 ∨ n % 4 = 2 ∨ n % 4 = 3 := by omega
  have hlast : rotate g 4 = g := rfl
  have hCzero : numCols g = 0 → g = [] := by
    intro hC
    rcases hp with rfl | hpos
    · rfl
    · omega
  rcases hmod with h4 | h4 | h4 | h4
  · have heven : n % 2 = 0 := by omega
    refine ⟨?_, fun hodd => absurd heven hodd, fun _ => ?_, hlast⟩
    · rw [rotate, rot90, h4]
      rfl
    · rw [rotate, rot90, h4]
      exact ⟨rfl, rfl⟩
  · have hodd : n % 2 ≠ 0 := by omega
    have hmain : rotate g n = rotCCW g := by
      rw [rotate, rot90, h4]
      exact rot1_eq hrect
    refine ⟨by rw [hmain, h4]; rfl, fun _ => ?_, fun hev => absurd hev hodd, hlast⟩
    rw [hmain, length_rotCCW]
    refine ⟨rfl, ?_⟩
    rcases Nat.eq_zero_or_pos (numCols g) with hC | hC
    · rw [rotCCW_empty_of_numCols_zero hC, hCzero hC]
      rfl
    · exact numCols_rotCCW hC
  · have heven : n % 2 = 0 := by omega
    have hmain : rotate g n = rotCCW (rotCCW g) := by
      rw [rotate, rot90, h4]
      exact rot2_eq hrect hp
    refine ⟨by rw [hmain, h4]; rfl, fun hodd => absurd heven hodd, fun _ => ?_, hlast⟩
    rw [hmain]
    rcases Nat.eq_zero_or_pos (numCols g) with hC | hC
    · rw [rotCCW_empty_of_numCols_zero hC, hCzero hC]
      exact ⟨rfl, rfl⟩
    · have hRpos : 0 < g.length := by
        rcases g with - | ⟨r, t⟩
        · exact absurd hC (by simp [numCols])
        · simp
      rw [length_rotCCW, numCols_rotCCW hC, numCols_rotCCW (by rwa [numCols_rotCCW hC]),
        length_rotCCW]
      exact ⟨rfl, rfl⟩
  · have hodd : n % 2 ≠ 0 := by omega
    have hmain : rotate g n = rotCCW (rotCCW (rotCCW g)) := by
      rw [rotate, rot90, h4]
      exact rot3_eq hrect hp
    refine ⟨by rw [hmain, h4]; rfl, fun _ => ?_, fun hev => absurd hev hodd, hlast⟩
    rw [hmain]
    rcases Nat.eq_zero_or_pos (numCols g) with hC | hC
    · rw [rotCCW_empty_of_numCols_zero hC, hCzero hC]
      exact ⟨rfl, rfl⟩
    · have hRpos : 0 < g.length := by
        rcases g with - | ⟨r, t⟩
        · exact absurd hC (by simp [numCols])
        · simp
      have hC2 : numCols (rotCCW g) = g.length := numCols_rotCCW hC
      have hC3 : numCols (rotCCW (rotCCW g)) = numCols g := by
        rw [numCols_rotCCW (by rwa [hC2]), length_rotCCW]
      rw [length_rotCCW, hC3, numCols_rotCCW (by rwa [hC3]), length_rotCCW, hC2]
      exact ⟨rfl, rfl⟩

/-- Witness for C7 at a concrete pattern and a negative rotation count. -/
theorem C7_rotate_spec_witness :
    rotate glider (-7) = rotCCW^[((-7 : Int) % 4).toNat] glider ∧
    ((-7 : Int) % 2 ≠ 0 →
      (rotate glider (-7)).length = numCols glider ∧
        numCols (rotate glider (-7)) = glider.length) ∧
    ((-7 : Int) % 2 = 0 →
      (rotate glider (-7)).length = glider.length ∧
        numCols (rotate glider (-7)) = numCols glider) ∧
    rotate glider 4 = glider :=
  C7_rotate_spec (by decide) (by decide) (-7)

/-! ### The 0/1 invariant (C6) -/

lemma rect_iff (g : Grid) :
    Rect g ↔ ∀ k, k < g.length → (g.getD k []).length = numCols g := by
  constructor
  · intro h k hk
    exact row_length_of_rect h hk
  · intro h row hrow
    obtain ⟨k, hk, rfl⟩ := List.mem_iff_getElem.mp hrow
    have := h k hk
    rwa [List.getD_eq_getElem _ _ hk] at this

lemma setCell_row_oob (g : Grid) (j v : Nat) {i : Nat} (h : g.length ≤ i) :
    setCell g i j v = g :=
  List.set_eq_of_length_le h

lemma rect_setCell {g : Grid} (hg : Rect g) (i j v : Nat) : Rect (setCell g i j v) := by
  rw [rect_iff]
  intro k hk
  rw [length_setCell] at hk
  rw [row_length_setCell, numCols_setCell]
  exact row_length_of_rect hg hk

lemma cells01_setCell {g : Grid} (h : cells01 g) {v : Nat} (hv : v = 0 ∨ v = 1)
    (i j : Nat) : cells01 (setCell g i j v) := by
  intro a b
  by_cases hab : i = a ∧ j = b
  · obtain ⟨rfl, rfl⟩ := hab
    rcases Nat.lt_or_ge i g.length with h1 | h1
    · rcases Nat.lt_or_ge j (g.getD i []).length with h2 | h2
      · rw [gridGet_setCell_self _ _ h1 h2]
        exact hv
      · rw [setCell_oob _ _ h2]
        exact h i j
    · rw [setCell_row_oob _ _ _ h1]
      exact h i j
  · rw [gridGet_setCell_ne _ _ _ _ _ _ (by tauto)]
    exact h a b

lemma rect_move {g : Grid} (hg : Rect g) : Rect (move g) := by
  rw [move_eq_movePure hg]
  exact rect_mkGrid _ _ _

lemma cells01_move {g : Grid} (hg : Rect g) : cells01 (move g) := by
  intro i j
  rw [gridGet_move hg]
  split
  · unfold moveCell
    split
    · right; rfl
    · left; rfl
  · rename_i hmem
    have hij : ¬(i < g.length ∧ j < numCols g) := fun hc => hmem (mem_positions.mpr hc)
    rcases Nat.lt_or_ge i g.length with hi | hi
    · have hj : numCols g ≤ j := by omega
      rw [gridGet_of_col_le g i (by rw [row_length_of_rect hg hi]; exact hj)]
      left; rfl
    · rw [gridGet_of_row_le g hi]
      left; rfl

lemma insert_some_shape {b p : Grid} {x y : Int} {b' : Grid}
    (h : insert b p x y = some b') :
    ∃ f, b' = mkGrid b.length (numCols b) f := by
  simp only [insert] at h
  split at h
  · exact ⟨_, (Option.some_inj.mp h).symm⟩
  · cases h

lemma cells01_insert {b p : Grid} (hb : cells01 b) (hp : cells01 p) {x y : Int} {b' : Grid}
    (h : insert b p x y = some b') : cells01 b' := by
  simp only [insert] at h
  split at h
  · obtain rfl := Option.some_inj.mp h.symm
    intro i j
    rw [gridGet_mkGrid]
    split
    · split
      · split <;> split <;> exact hp _ _
      · exact hb i j
    · left; rfl
  · cases h

/-- Both structural invariants carried through every operation. -/
def GoodBoard (g : Grid) : Prop := Rect g ∧ cells01 g

lemma goodBoard_applyOp {g : Grid} (hg : GoodBoard g) {op : Op} (hop : opValid01 op) :
    GoodBoard (applyOp g op) := by
  rcases op with ⟨r, c, v⟩ | ⟨p, x, y⟩ | -
  · simp only [applyOp]
    rcases heq : setItem g r c v with - | b'
    · exact hg
    · simp only [Option.getD_some]
      simp only [setItem] at heq
      split at heq
      · obtain rfl := Option.some_inj.mp heq.symm
        exact ⟨rect_setCell hg.1 _ _ _, cells01_setCell hg.2 hop _ _⟩
      · cases heq
  · simp only [applyOp]
    rcases heq : insert g p x y with - | b'
    · exact hg
    · simp only [Option.getD_some]
      refine ⟨?_, cells01_insert hg.2 (cells01_of_forall hop) heq⟩
      obtain ⟨f, rfl⟩ := insert_some_shape heq
      exact rect_mkGrid _ _ _
  · exact ⟨rect_move hg.1, cells01_move hg.1⟩

lemma goodBoard_run {g : Grid} (hg : GoodBoard g) {ops : List Op}
    (hops : ∀ op ∈ ops, opValid01 op) : GoodBoard (run g ops) := by
  induction ops generalizing g with
  | nil => exact hg
  | cons op rest ih =>
    rw [run, List.foldl_cons]
    exact ih (goodBoard_applyOp hg (hops op (List.mem_cons_self _ _)))
      fun o ho => hops o (List.mem_cons_of_mem _ ho)

lemma numCols_gameNew (s : Nat) : numCols (gameNew s) = s := by
  rcases s with - | t
  · rfl
  · rw [numCols_eq_row0, gameNew, List.getD_eq_getElem _ _ (by simp), List.getElem_replicate]
    simp

lemma rect_gameNew (s : Nat) : Rect (gameNew s) := by
  intro row hrow
  rw [gameNew] at hrow
  obtain rfl := List.eq_of_mem_replicate hrow
  rw [numCols_gameNew]
  simp

lemma cells01_gameNew (s : Nat) : cells01 (gameNew s) := by
  refine cells01_of_forall fun row hrow v hv => ?_
  rw [gameNew] at hrow
  obtain rfl := List.eq_of_mem_replicate hrow
  obtain rfl := List.eq_of_mem_replicate hv
  left; rfl

/-- C6.  Starting from `new size` (all dead) and running any finite
sequence of `set`, `insert` and `advance` operations whose inputs are all
`0` or `1`, every cell of the board is `0` or `1` after each operation
(i.e. after every prefix of the sequence). -/
theorem C6_cells_binary (s : Nat) (ops : List Op)
    (hops : ∀ op ∈ ops, opValid01 op) (n : Nat) :
    cells01 (run (gameNew s) (ops.take n)) :=
  (goodBoard_run ⟨rect_gameNew s, cells01_gameNew s⟩
    fun op ho => hops op (List.take_subset n ops ho)).2

/-- Witness for C6 on a concrete operation sequence. -/
theorem C6_cells_binary_witness :
    cells01 (run (gameNew 2) ([Op.setOp 0 0 1, Op.advanceOp].take 2)) :=
  C6_cells_binary 2 [Op.setOp 0 0 1, Op.advanceOp]
    (by
      intro op hop
      simp only [List.mem_cons, List.not_mem_nil, or_false] at hop
      rcases hop with rfl | rfl
      · exact Or.inr rfl
      · trivial)
    2

/-! ### Characterisation of `Game.insert` -/

/-- Per-axis broadcast compatibility of the slice assignment: the source
slice length equals the destination slice length or is `1`. -/
def axOk (S L : Nat) (t : Int) : Prop :=
  axSrcEnd S L t - axSrcStart S L t = axEnd S L t - axStart S L t ∨
  axSrcEnd S L t - axSrcStart S L t = 1

/-- The axis is free of negative-slice-index anomalies: the window end is
not left of the axis start and the source slice end is not negative. -/
def axNormal (S L : Nat) (t : Int) : Prop :=
  0 ≤ t + ((L + 1) / 2 : Nat) ∧ t ≤ (S : Int) + (L / 2 : Nat)

/-- The centre is far beyond the axis on one side: both the destination
and the source slice come out empty. -/
def axFar (S L : Nat) (t : Int) : Prop :=
  t + ((L + 1) / 2 : Nat) ≤ -(S : Int) ∨ (S : Int) + L ≤ t - (L / 2 : Nat)

lemma ax_normal_counts {S L : Nat} {t : Int} (h : axNormal S L t) :
    axSrcEnd S L t - axSrcStart S L t = axEnd S L t - axStart S L t := by
  obtain ⟨h1, h2⟩ := h
  unfold axSrcEnd axSrcStart axEnd axStart sliceBound
  split_ifs <;> omega

lemma ax_far_counts {S L : Nat} {t : Int} (h : axFar S L t) :
    axSrcEnd S L t - axSrcStart S L t = 0 ∧ axEnd S L t - axStart S L t = 0 := by
  unfold axFar at h
  unfold axSrcEnd axSrcStart axEnd axStart sliceBound
  split_ifs <;> omega

lemma ax_ok_of_far_or_normal {S L : Nat} {t : Int}
    (h : axFar S L t ∨ axNormal S L t) : axOk S L t := by
  rcases h with h | h
  · obtain ⟨h1, h2⟩ := ax_far_counts h
    exact Or.inl (h1.trans h2.symm)
  · exact Or.inl (ax_normal_counts h)

/-- The claim's destination window on one axis: positions
`[t - L//2, t + (L+1)//2)` of the board axis. -/
def inWindow (L : Nat) (t : Int) (i : Nat) : Prop :=
  t - (L / 2 : Nat) ≤ (i : Int) ∧ (i : Int) < t + ((L + 1) / 2 : Nat)

instance (L : Nat) (t : Int) (i : Nat) : Decidable (inWindow L t i) :=
  inferInstanceAs (Decidable (_ ∧ _))

/-- On a broadcast-compatible axis, the effective destination slice is
exactly the clipped window of the claim. -/
lemma ax_window_iff {S L : Nat} {t : Int} (h : axOk S L t) {i : Nat} (hi : i < S) :
    (axStart S L t ≤ i ∧ i < axEnd S L t) ↔ inWindow L t i := by
  unfold axOk axSrcEnd axSrcStart axEnd axStart sliceBound at h
  unfold inWindow axEnd axStart sliceBound
  split_ifs at h ⊢ <;> omega

/-- Inside the destination window, the source cell read by the slice
assignment is the pattern cell the claim names, and it is in range. -/
lemma ax_src_index {S L : Nat} {t : Int} (h : axOk S L t) {i : Nat}
    (h0 : axStart S L t ≤ i) (h1 : i < axEnd S L t) (hi : i < S) :
    (if axSrcEnd S L t - axSrcStart S L t = 1 then axSrcStart S L t
      else axSrcStart S L t + (i - axStart S L t)) = ((i : Int) - t + (L / 2 : Nat)).toNat ∧
    ((i : Int) - t + (L / 2 : Nat)).toNat < L := by
  unfold axOk axSrcEnd axSrcStart axEnd axStart sliceBound at h
  unfold axStart sliceBound at h0
  unfold axEnd sliceBound at h1
  unfold axSrcEnd axSrcStart axStart sliceBound
  split_ifs at h h0 h1 ⊢ <;> omega

/-- What a successful `insert` does to every cell: a cell in the clipped
window receives the corresponding pattern cell, every other cell is
unchanged, and the shape is preserved. -/
lemma insert_char {b p : Grid} (_hb : Rect b) {x y : Int} {b' : Grid}
    (h : insert b p x y = some b') :
    b'.length = b.length ∧
    (∀ k, k < b.length → (b'.getD k []).length = numCols b) ∧
    (∀ i j, i < b.length → j < numCols b →
      gridGet b' i j =
        if inWindow p.length x i ∧ inWindow (numCols p) y j then
          gridGet p ((i : Int) - x + (p.length / 2 : Nat)).toNat
                    ((j : Int) - y + (numCols p / 2 : Nat)).toNat
        else gridGet b i j) := by
  simp only [insert] at h
  split at h
  case isFalse => cases h
  case isTrue hc =>
    obtain rfl := (Option.some_inj.mp h).symm
    have hok1 : axOk b.length p.length x := hc.1
    have hok2 : axOk (numCols b) (numCols p) y := hc.2
    refine ⟨length_mkGrid _ _ _, fun k hk => row_length_mkGrid _ _ _ hk,
      fun i j hi hj => ?_⟩
    rw [gridGet_mkGrid, if_pos ⟨hi, hj⟩]
    have hw1 := ax_window_iff hok1 hi
    have hw2 := ax_window_iff hok2 hj
    by_cases hw : inWindow p.length x i ∧ inWindow (numCols p) y j
    · rw [if_pos hw]
      obtain ⟨hin1a, hin1b⟩ := hw1.mpr hw.1
      obtain ⟨hin2a, hin2b⟩ := hw2.mpr hw.2
      rw [if_pos ⟨hin1a, hin1b, hin2a, hin2b⟩]
      obtain ⟨he1, -⟩ := ax_src_index hok1 hin1a hin1b hi
      obtain ⟨he2, -⟩ := ax_src_index hok2 hin2a hin2b hj
      rw [he1, he2]
    · rw [if_neg hw]
      refine if_neg fun hcnd => hw ⟨hw1.mp ⟨hcnd.1, hcnd.2.1⟩, hw2.mp ⟨hcnd.2.2.1, hcnd.2.2.2⟩⟩

/-- C3 (amended).  Whenever the clipped window is nonempty, `insert`
completes; and whenever `insert` completes, pattern rows `[0, H)` map to
board rows `[x - H//2, x + (H+1)//2)` and likewise for columns, clipped
to the board: every board cell inside the clipped window receives exactly
the corresponding pattern cell and every other cell is unchanged.  (For
some fully-clipped centres `insert` instead raises a broadcast error,
which is why completion must be assumed; see the counterexample.) -/
theorem C3_insert_mapping {b p : Grid} (hb : Rect b) (x y : Int) :
    ((∃ i : Nat, i < b.length ∧ inWindow p.length x i) →
     (∃ j : Nat, j < numCols b ∧ inWindow (numCols p) y j) →
     (insert b p x y).isSome = true) ∧
    (∀ b', insert b p x y = some b' →
      b'.length = b.length ∧
      (∀ k, k < b.length → (b'.getD k []).length = numCols b) ∧
      (∀ i j, i < b.length → j < numCols b →
        gridGet b' i j =
          if inWindow p.length x i ∧ inWindow (numCols p) y j then
            gridGet p ((i : Int) - x + (p.length / 2 : Nat)).toNat
                      ((j : Int) - y + (numCols p / 2 : Nat)).toNat
          else gridGet b i j)) := by
  constructor
  · rintro ⟨i, hi, hwi⟩ ⟨j, hj, hwj⟩
    have hn1 : axNormal b.length p.length x := by
      unfold inWindow at hwi
      unfold axNormal
      omega
    have hn2 : axNormal (numCols b) (numCols p) y := by
      unfold inWindow at hwj
      unfold axNormal
      omega
    simp only [insert]
    rw [if_pos ⟨Or.inl (ax_normal_counts hn1), Or.inl (ax_normal_counts hn2)⟩]
    rfl
  · exact fun b' h => insert_char hb h

/-- Witness for C3 at a concrete board, pattern and centre. -/
theorem C3_insert_mapping_witness :
    ((∃ i : Nat, i < (gameNew 4).length ∧ inWindow blinker.length 1 i) →
     (∃ j : Nat, j < numCols (gameNew 4) ∧ inWindow (numCols blinker) 1 j) →
     (insert (gameNew 4) blinker 1 1).isSome = true) ∧
    (∀ b', insert (gameNew 4) blinker 1 1 = some b' →
      b'.length = (gameNew 4).length ∧
      (∀ k, k < (gameNew 4).length → (b'.getD k []).length = numCols (gameNew 4)) ∧
      (∀ i j, i < (gameNew 4).length → j < numCols (gameNew 4) →
        gridGet b' i j =
          if inWindow blinker.length 1 i ∧ inWindow (numCols blinker) 1 j then
            gridGet blinker ((i : Int) - 1 + (blinker.length / 2 : Nat)).toNat
                      ((j : Int) - 1 + (numCols blinker / 2 : Nat)).toNat
          else gridGet (gameNew 4) i j)) :=
  C3_insert_mapping (by decide) 1 1

/-- Counterexample to C3 as stated: at centre `(6, 1)` on a `4 × 4` board
the `3 × 3` pattern's window is fully clipped, yet `insert` does not
perform the (empty) copy and leave the board unchanged — the slice
assignment raises a broadcast `ValueError`, so there is no resulting
board at all. -/
theorem C3_counterexample : insert (gameNew 4) blinker 6 1 = none := by decide

/-- The pattern's window lies fully outside the board. -/
def fullyOutside (b p : Grid) (x y : Int) : Prop :=
  (x + ((p.length + 1) / 2 : Nat) ≤ 0 ∨ (b.length : Int) ≤ x - (p.length / 2 : Nat)) ∨
  (y + ((numCols p + 1) / 2 : Nat) ≤ 0 ∨ (numCols b : Int) ≤ y - (numCols p / 2 : Nat))

instance (b p : Grid) (x y : Int) : Decidable (fullyOutside b p x y) :=
  inferInstanceAs (Decidable (_ ∨ _))

/-- C5 (amended).  When the window is fully outside the board, `insert`
never modifies any cell: if it completes, the board is returned unchanged;
and it does complete without error whenever the centre is far enough
beyond the edge on the outside axis (distance at least `size + dimension`)
while the other axis is anomaly-free or also far. -/
theorem C5_insert_outside {b p : Grid} (hb : Rect b) (x y : Int) :
    (∀ b', fullyOutside b p x y → insert b p x y = some b' → b' = b) ∧
    ((axFar b.length p.length x ∨ axNormal b.length p.length x) →
     (axFar (numCols b) (numCols p) y ∨ axNormal (numCols b) (numCols p) y) →
     (axFar b.length p.length x ∨ axFar (numCols b) (numCols p) y) →
     insert b p x y = some b) := by
  constructor
  · intro b' hout h
    obtain ⟨hlen, hrows, hget⟩ := insert_char hb h
    refine grid_ext hlen (fun k hk => ?_) (fun i j => ?_)
    · rw [hlen] at hk
      rw [hrows k hk, row_length_of_rect hb hk]
    · rcases Nat.lt_or_ge i b.length with hi | hi
      · rcases Nat.lt_or_ge j (numCols b) with hj | hj
        · rw [hget i j hi hj]
          refine if_neg fun hw => ?_
          obtain ⟨⟨hw1a, hw1b⟩, hw2a, hw2b⟩ := hw
          unfold fullyOutside at hout
          omega
        · rw [gridGet_of_col_le b' i (by rw [hrows i hi]; exact hj),
            gridGet_of_col_le b i (by rw [row_length_of_rect hb hi]; exact hj)]
      · rw [gridGet_of_row_le b' (by omega), gridGet_of_row_le b hi]
  · intro hx hy hfar
    simp only [insert]
    rw [if_pos ⟨ax_ok_of_far_or_normal hx, ax_ok_of_far_or_normal hy⟩]
    congr 1
    refine grid_ext (by rw [length_mkGrid]) (fun k hk => ?_) (fun i j => ?_)
    · rw [length_mkGrid] at hk
      rw [row_length_mkGrid _ _ _ hk, row_length_of_rect hb hk]
    · rw [gridGet_mkGrid]
      rcases Nat.lt_or_ge i b.length with hi | hi
      · rcases Nat.lt_or_ge j (numCols b) with hj | hj
        · rw [if_pos ⟨hi, hj⟩]
          refine if_neg fun hcnd => ?_
          rcases hfar with hf | hf
          · obtain ⟨-, h0⟩ := ax_far_counts hf
            omega
          · obtain ⟨-, h0⟩ := ax_far_counts hf
            omega
        · rw [if_neg (by omega),
            gridGet_of_col_le b i (by rw [row_length_of_rect hb hi]; exact hj)]
      · rw [if_neg (by omega), gridGet_of_row_le b hi]

/-- Witness for C5 at a concrete far-outside centre. -/
theorem C5_insert_outside_witness :
    (∀ b', fullyOutside (gameNew 5) blinker (-100) 2 →
      insert (gameNew 5) blinker (-100) 2 = some b' → b' = gameNew 5) ∧
    ((axFar (gameNew 5).length blinker.length (-100) ∨
        axNormal (gameNew 5).length blinker.length (-100)) →
     (axFar (numCols (gameNew 5)) (numCols blinker) 2 ∨
        axNormal (numCols (gameNew 5)) (numCols blinker) 2) →
     (axFar (gameNew 5).length blinker.length (-100) ∨
        axFar (numCols (gameNew 5)) (numCols blinker) 2) →
     insert (gameNew 5) blinker (-100) 2 = some (gameNew 5)) :=
  C5_insert_outside (by decide) (-100) 2

/-- Counterexample to C5 as stated: at centre `(7, 2)` on a `5 × 5` board
the `3 × 3` pattern's window `[6, 9)` lies fully outside, yet `insert`
raises a broadcast `ValueError` instead of leaving the board unchanged
without error. -/
theorem C5_counterexample :
    fullyOutside (gameNew 5) blinker 7 2 ∧ insert (gameNew 5) blinker 7 2 = none := by
  decide

/-! ### The blinker oscillation (C8) -/

lemma insert_isSome_of_normal {b p : Grid} {x y : Int}
    (h1 : axNormal b.length p.length x) (h2 : axNormal (numCols b) (numCols p) y) :
    ∃ b', insert b p x y = some b' := by
  simp only [insert]
  rw [if_pos ⟨Or.inl (ax_normal_counts h1), Or.inl (ax_normal_counts h2)⟩]
  exact ⟨_, rfl⟩

lemma length_gameNew (s : Nat) : (gameNew s).length = s := by
  simp [gameNew]

lemma gridGet_gameNew (s i j : Nat) : gridGet (gameNew s) i j = 0 := by
  unfold gameNew gridGet
  rcases Nat.lt_or_ge i s with hi | hi
  · have h1 : (List.replicate s (List.replicate s (0 : Nat))).getD i [] =
        List.replicate s (0 : Nat) := by
      rw [List.getD_eq_getElem _ _
        (show i < (List.replicate s (List.replicate s (0 : Nat))).length by simpa using hi)]
      exact List.getElem_replicate _ _
    rw [h1]
    rcases Nat.lt_or_ge j s with hj | hj
    · rw [List.getD_eq_getElem _ _
        (show j < (List.replicate s (0 : Nat)).length by simpa using hj)]
      exact List.getElem_replicate _ _
    · exact getD_of_le _ _ (by simpa using hj)
  · rw [getD_of_le _ _
      (show (List.replicate s (List.replicate s (0 : Nat))).length ≤ i by simpa using hi)]
    rfl

lemma gridGet_blinker (a c : Nat) :
    gridGet blinker a c = if a = 1 ∧ c < 3 then 1 else 0 := by
  unfold blinker gridGet
  rcases a with - | - | - | a <;> rcases c with - | - | - | c <;> rfl

lemma gridGet_blinkerUp (a c : Nat) :
    gridGet blinkerUp a c = if a < 3 ∧ c = 1 then 1 else 0 := by
  unfold blinkerUp gridGet
  rcases a with - | - | - | a <;> rcases c with - | - | - | c <;> rfl

lemma getZ_natCast (g : Grid) (i j : Nat) : getZ g (i : Int) (j : Int) = gridGet g i j := by
  unfold getZ
  rw [if_pos ⟨Int.natCast_nonneg i, Int.natCast_nonneg j⟩, Int.toNat_natCast,
    Int.toNat_natCast]

/-- `insert_char` specialised to a `3 × 3` pattern. -/
lemma insert3_char {b : Grid} (hb : Rect b) {p : Grid} (hp3 : p.length = 3)
    (hpc3 : numCols p = 3) {x y : Int} {b' : Grid} (h : insert b p x y = some b') :
    b'.length = b.length ∧
    (∀ k, k < b.length → (b'.getD k []).length = numCols b) ∧
    (∀ i j, i < b.length → j < numCols b →
      gridGet b' i j =
        if x - 1 ≤ (i : Int) ∧ (i : Int) < x + 2 ∧ y - 1 ≤ (j : Int) ∧ (j : Int) < y + 2 then
          gridGet p ((i : Int) - x + 1).toNat ((j : Int) - y + 1).toNat
        else gridGet b i j) := by
  obtain ⟨h1, h2, h3⟩ := insert_char hb h
  refine ⟨h1, h2, fun i j hi hj => ?_⟩
  rw [h3 i j hi hj, hp3, hpc3]
  norm_num [inWindow]
  refine if_congr ?_ rfl rfl
  constructor <;> intro hh <;> [exact ⟨hh.1.1, hh.1.2, hh.2.1, hh.2.2⟩;
    exact ⟨⟨hh.1, hh.2.1⟩, hh.2.2.1, hh.2.2.2⟩]

/-- One generation computed from a single horizontal 3-cell live row in an
otherwise-empty field: exactly the vertical 3-cell live column remains. -/
lemma blinker_step {x y : Nat} {b1 : Grid}
    (hcell : ∀ a c : Int, getZ b1 a c =
      if a = (x : Int) ∧ (y : Int) - 1 ≤ c ∧ c ≤ (y : Int) + 1 then 1 else 0)
    (i j : Nat) :
    moveCell (ncount b1 i j) (gridGet b1 i j) =
      if (x : Int) - 1 ≤ i ∧ (i : Int) < x + 2 ∧ (j : Int) = y then 1 else 0 := by
  rw [← getZ_natCast b1 i j]
  simp only [ncount, neighborOffsets, List.map_cons, List.map_nil, List.sum_cons,
    List.sum_nil]
  norm_num
  simp only [hcell]
  unfold moveCell
  split_ifs <;> omega

/-- C8.  Inserting the blinker centred at `(x, y)` on an empty board large
enough that the pattern is not clipped and advancing once gives the same
board as inserting the 90-degree-rotated blinker at the same centre on an
empty board. -/
theorem C8_blinker_advance {s x y : Nat} (hx1 : 1 ≤ x) (hx2 : x + 2 ≤ s)
    (hy1 : 1 ≤ y) (hy2 : y + 2 ≤ s) :
    (insert (gameNew s) blinker (x : Int) (y : Int)).map move =
      insert (gameNew s) blinkerUp (x : Int) (y : Int) := by
  have hlen : (gameNew s).length = s := length_gameNew s
  have hnum : numCols (gameNew s) = s := numCols_gameNew s
  have hrectN : Rect (gameNew s) := rect_gameNew s
  have hbl : blinker.length = 3 := rfl
  have hbc : numCols blinker = 3 := rfl
  have hul : blinkerUp.length = 3 := rfl
  have huc : numCols blinkerUp = 3 := rfl
  have haxr1 : axNormal (gameNew s).length blinker.length (x : Int) := by
    unfold axNormal
    rw [hlen, hbl]
    omega
  have haxc1 : axNormal (numCols (gameNew s)) (numCols blinker) (y : Int) := by
    unfold axNormal
    rw [hnum, hbc]
    omega
  have haxr2 : axNormal (gameNew s).length blinkerUp.length (x : Int) := by
    unfold axNormal
    rw [hlen, hul]
    omega
  have haxc2 : axNormal (numCols (gameNew s)) (numCols blinkerUp) (y : Int) := by
    unfold axNormal
    rw [hnum, huc]
    omega
  obtain ⟨b1, hb1⟩ := insert_isSome_of_normal haxr1 haxc1
  obtain ⟨b2, hb2⟩ := insert_isSome_of_normal haxr2 haxc2
  obtain ⟨f1, hb1s⟩ := insert_some_shape hb1
  obtain ⟨f2, hb2s⟩ := insert_some_shape hb2
  have hrect1 : Rect b1 := by rw [hb1s]; exact rect_mkGrid _ _ _
  have hlen1 : b1.length = s := by rw [hb1s, length_mkGrid, hlen]
  have hnum1 : numCols b1 = s := by
    rw [hb1s, hlen, hnum]
    exact numCols_mkGrid _ _ (by omega)
  obtain ⟨-, hrow1, hget1⟩ := insert3_char hrectN hbl hbc hb1
  obtain ⟨hlen2, hrow2, hget2⟩ := insert3_char hrectN hul huc hb2
  have hcellN : ∀ i j : Nat, gridGet b1 i j =
      if (i : Int) = x ∧ (y : Int) - 1 ≤ j ∧ (j : Int) ≤ y + 1 then 1 else 0 := by
    intro i j
    rcases Nat.lt_or_ge i s with hi | hi
    · rcases Nat.lt_or_ge j s with hj | hj
      · rw [hget1 i j (by omega) (by omega)]
        by_cases hw : (x : Int) - 1 ≤ i ∧ (i : Int) < x + 2 ∧
            (y : Int) - 1 ≤ j ∧ (j : Int) < y + 2
        · rw [if_pos hw, gridGet_blinker]
          refine if_congr ?_ rfl rfl
          constructor <;> intro <;> omega
        · rw [if_neg hw, gridGet_gameNew, if_neg (by omega)]
      · rw [gridGet_of_col_le b1 i (by have h := hrow1 i (by omega); omega),
          if_neg (by omega)]
    · rw [gridGet_of_row_le b1 (by omega), if_neg (by omega)]
  have hcellZ : ∀ a c : Int, getZ b1 a c =
      if a = (x : Int) ∧ (y : Int) - 1 ≤ c ∧ c ≤ (y : Int) + 1 then 1 else 0 := by
    intro a c
    unfold getZ
    split
    case isTrue hpos =>
      rw [hcellN a.toNat c.toNat]
      refine if_congr ?_ rfl rfl
      constructor <;> intro <;> omega
    case isFalse hneg =>
      rw [if_neg (by omega)]
  have hmove : move b1 = b2 := by
    rw [move_eq_movePure hrect1]
    refine grid_ext ?_ ?_ ?_
    · rw [movePure, length_mkGrid, hlen1, hlen2, hlen]
    · intro k hk
      rw [movePure, length_mkGrid, hlen1] at hk
      rw [movePure, row_length_mkGrid _ _ _ (by omega), hnum1, hrow2 k (by omega), hnum]
    · intro i j
      rw [movePure, gridGet_mkGrid]
      rcases Nat.lt_or_ge i s with hi | hi
      · rcases Nat.lt_or_ge j s with hj | hj
        · rw [if_pos (by omega), blinker_step hcellZ i j, hget2 i j (by omega) (by omega)]
          by_cases hw : (x : Int) - 1 ≤ i ∧ (i : Int) < x + 2 ∧
              (y : Int) - 1 ≤ j ∧ (j : Int) < y + 2
          · rw [if_pos hw, gridGet_blinkerUp]
            split_ifs <;> omega
          · rw [if_neg hw, gridGet_gameNew]
            rw [if_neg (by omega)]
        · rw [if_neg (by omega),
            gridGet_of_col_le b2 i (by have h := hrow2 i (by omega); omega)]
      · rw [if_neg (by omega), gridGet_of_row_le b2 (by omega)]
  rw [hb1, hb2, Option.map_some', hmove]

/-- Witness for C8 at a concrete board size and centre. -/
theorem C8_blinker_advance_witness :
    (insert (gameNew 5) blinker ((2 : Nat) : Int) ((2 : Nat) : Int)).map move =
      insert (gameNew 5) blinkerUp ((2 : Nat) : Int) ((2 : Nat) : Int) :=
  C8_blinker_advance (by decide) (by decide) (by decide) (by decide)

end Life
